import Mathlib

/-!
Verification development for the Versui service-worker plugin
(`src/index.js`): path normalization, the resource registry, the
ordered-aggregator failover fetch, and the notification one-shot flag.

JavaScript strings are modelled as Lean strings (sequences of characters);
the JS string operations used by the source are defined below on the
underlying character list.  Host capabilities (the WHATWG URL constructor,
the network `fetch`, `clients.postMessage`) are modelled explicitly: the
URL constructor as a restricted parser model, `fetch` as an outcome oracle
passed to the functions that perform network calls, and notifications as an
event list returned alongside the result.
-/

/-- JS `s.startsWith(p)`. -/
def js_startsWith (s p : String) : Bool :=
  p.data.isPrefixOf s.data

/-- JS `s.endsWith(p)`. -/
def js_endsWith (s p : String) : Bool :=
  p.data.isSuffixOf s.data

/-- JS `s.slice(0, -1)`: drop the last character. -/
def js_dropLast (s : String) : String :=
  ⟨s.data.dropLast⟩

/-- JS `s.toLowerCase()` (ASCII case folding suffices for the inputs the
source applies it to: file extensions and URL schemes). -/
def js_toLower (s : String) : String :=
  ⟨s.data.map Char.toLower⟩

/-- Holds when a character may appear in a URL scheme after the first
character (ASCII alphanumeric, `+`, `-` or `.`). -/
def scheme_char (d : Char) : Bool :=
  d.isAlphanum || d = '+' || d = '-' || d = '.'

/-- Holds when `l` is a syntactically valid URL scheme (one ASCII letter
followed by scheme characters). -/
def valid_scheme_chars (l : List Char) : Bool :=
  match l with
  | [] => false
  | c :: rest => c.isAlpha && rest.all scheme_char

/-- The host of a special-scheme URL once the leading slash run is
skipped: everything up to the first path, query or fragment delimiter. -/
def host_of (rest1 : List Char) : List Char :=
  rest1.takeWhile (fun c => !(c = '/' || c = '\\' || c = '?' || c = '#'))

/-- The path of a special-scheme URL after the host: everything up to the
first query or fragment delimiter. -/
def path_after_host (rest1 : List Char) : List Char :=
  (rest1.drop (host_of rest1).length).takeWhile (fun c => !(c = '?' || c = '#'))

/-- Pathname of a special-scheme (`http`/`https`) URL given everything
after the scheme colon with the leading slash run already skipped: a
non-empty host is required (else the constructor throws), and an empty
path serializes as the root path. -/
def special_pathname (rest1 : List Char) : Option String :=
  if host_of rest1 = [] then none
  else some (if path_after_host rest1 = [] then "/" else ⟨path_after_host rest1⟩)

/-- Pathname given the lower-cased scheme and everything after the scheme
colon: invalid schemes throw, `http`/`https` parse an authority and path,
other schemes carry an opaque path up to `?` or `#`. -/
def url_after_scheme (scheme rest : List Char) : Option String :=
  if valid_scheme_chars scheme then
    if scheme = "http".data ∨ scheme = "https".data then
      special_pathname (rest.dropWhile (fun c => c = '/' || c = '\\'))
    else
      some ⟨rest.takeWhile (fun c => !(c = '?' || c = '#'))⟩
  else none

/-- Model of the pathname computed by the WHATWG `new URL` constructor, a
host capability (not repository code).  `none` models the constructor
throwing.  The model covers: absence of a scheme-colon (throw), invalid
scheme characters (throw), the special schemes `http`/`https` (leading
slash run skipped, non-empty host required, path taken up to `?` or `#`,
empty path serialized as the root path), and other schemes as an opaque
path up to `?` or `#`.  It does not model user info, ports,
percent-encoding, dot-segment removal, or backslash conversion inside
paths; no statement below evaluates it on inputs that use those features. -/
def url_pathname (s : String) : Option String :=
  if s.data.contains ':' then
    url_after_scheme ((s.data.takeWhile (fun c => c ≠ ':')).map Char.toLower)
      ((s.data.dropWhile (fun c => c ≠ ':')).drop 1)
  else none

/-- Holds when `new URL(u)` succeeds in the model above. -/
def url_ok (u : String) : Bool :=
  (url_pathname u).isSome

/-- The query-string strip in `normalize_path`: JS
`indexOf('?')` followed by `slice(0, query_index)` when a `?` occurs. -/
def strip_query (s : String) : String :=
  if s.data.contains '?' then ⟨s.data.takeWhile (fun c => c ≠ '?')⟩ else s

/-- The trailing-slash strip shared by both branches of `normalize_path`:
`if (s.length > 1 && s.endsWith(slash)) return s.slice(0, -1)`. -/
def strip_one_trailing (s : String) : String :=
  if s.data.length > 1 && js_endsWith s "/" then js_dropLast s else s

/-- Function `normalize_path` from `src/index.js`: inputs starting with `http` go
through the URL constructor (pathname, then trailing-slash strip); other
inputs get the query stripped manually, a leading slash ensured, and the
trailing-slash strip.  `none` models the function throwing (the URL
constructor throwing on an unparseable input). -/
def normalize_path (s : String) : Option String :=
  if js_startsWith s "http" then
    (url_pathname s).map strip_one_trailing
  else
    let n1 := strip_query s
    let n2 := if js_startsWith n1 "/" then n1 else "/" ++ n1
    some (strip_one_trailing n2)

/-- Table `MIME_TYPES` from `src/index.js`. -/
def MIME_TYPES : List (String × String) :=
  [(".html", "text/html"), (".js", "text/javascript"), (".mjs", "text/javascript"),
   (".css", "text/css"), (".json", "application/json"), (".svg", "image/svg+xml"),
   (".png", "image/png"), (".jpg", "image/jpeg"), (".jpeg", "image/jpeg"),
   (".gif", "image/gif"), (".webp", "image/webp"), (".ico", "image/x-icon"),
   (".woff", "font/woff"), (".woff2", "font/woff2"), (".ttf", "font/ttf"),
   (".wasm", "application/wasm"), (".txt", "text/plain"), (".xml", "application/xml")]

/-- JS `path.slice(path.lastIndexOf(dot))` when a dot occurs: the suffix
from the last `.` (inclusive). -/
def ext_of (path : String) : Option String :=
  if path.data.contains '.' then
    some ⟨'.' :: (path.data.reverse.takeWhile (fun c => c ≠ '.')).reverse⟩
  else none

/-- Function `get_mime_type` from `src/index.js`. -/
def get_mime_type (path : String) : String :=
  match ext_of path with
  | none => "application/octet-stream"
  | some e =>
    ((MIME_TYPES.find? (fun p => p.1 = js_toLower e)).map Prod.snd).getD
      "application/octet-stream"

/-- Function `trim_trailing_slash` from `src/index.js`. -/
def trim_trailing_slash (url : String) : String :=
  if js_endsWith url "/" then js_dropLast url else url

/-- Lookup in the JS `Map` holding the resources: value of the first (and
only) entry whose key equals `k`. -/
def map_get (m : List (String × String)) (k : String) : Option String :=
  (m.find? (fun p => p.1 == k)).map Prod.snd

/-- JS `Map.prototype.has`. -/
def map_has (m : List (String × String)) (k : String) : Bool :=
  (map_get m k).isSome

/-- JS `Map.prototype.set`: overwrite the entry with key `k` in place if
one exists, otherwise append a new entry. -/
def map_set (m : List (String × String)) (k v : String) : List (String × String) :=
  match m with
  | [] => [(k, v)]
  | p :: rest => if p.1 == k then (k, v) :: rest else p :: map_set rest k v

/-- Outcome of one `fetch` call as seen by `try_aggregators`: either a
settled response with a status code and body, or a thrown error (network
failure, or the 5-second abort timeout) carrying its message. -/
inductive Outcome
  | resp (status : Nat) (body : String)
  | exn (msg : String)

/-- JS `response.ok`: status in the range 200 to 299. -/
def Outcome.is_ok : Outcome → Bool
  | .resp s _ => 200 ≤ s && s ≤ 299
  | .exn _ => false

/-- Coercion of a possibly-undefined value into a JS template literal:
`undefined` prints as the string `undefined`. -/
def js_str : Option String → String
  | some s => s
  | none => "undefined"

/-- The retrieval URL built by `try_aggregators`:
the aggregator base, the fixed blob path, and the quilt patch id. -/
def fetch_url (aggregator : String) (quilt_patch_id : Option String) : String :=
  aggregator ++ "/v1/blobs/" ++ js_str quilt_patch_id

/-- The failure message `try_aggregators` records for a settled non-ok
response (`aggregator: status`), or the thrown error's message. `none`
when the outcome is a success and no failure is recorded. -/
def failure_msg (aggregator : String) : Outcome → Option String
  | .resp s _ => if 200 ≤ s && s ≤ 299 then none else some (aggregator ++ ": " ++ toString s)
  | .exn m => some m

/-- Function `try_aggregators` from `src/index.js`, with the network modelled by the
oracle `f` (applied to each attempt's full fetch URL) and the list of
aggregators contacted returned alongside the result.  The accumulator is
`last_error` (`none` models the initial `undefined`); the result is the
first ok response's body, or `Except.error last_error` after the loop. -/
def try_aggregators (f : String → Outcome) (quilt_patch_id : Option String) :
    List String → Option String → Except (Option String) String × List String
  | [], last_error => (.error last_error, [])
  | a :: rest, last_error =>
    match f (fetch_url a quilt_patch_id) with
    | .resp s b =>
      if 200 ≤ s && s ≤ 299 then (.ok b, [a])
      else
        let r := try_aggregators f quilt_patch_id rest (some (a ++ ": " ++ toString s))
        (r.1, a :: r.2)
    | .exn m =>
      let r := try_aggregators f quilt_patch_id rest (some m)
      (r.1, a :: r.2)

/-- A notification posted to the clients (`notify_clients` payloads):
`VERSUI_LOADING {path}`, `VERSUI_SUCCESS {}`, or `VERSUI_ERROR {message}`. -/
inductive Event
  | loading (path : String)
  | success
  | error (msg : String)

/-- Holds exactly on the `VERSUI_SUCCESS` notification. -/
def Event.is_success : Event → Bool
  | .success => true
  | _ => false

/-- Number of `VERSUI_SUCCESS` notifications in an event list. -/
def count_success (evs : List Event) : Nat :=
  (evs.filter Event.is_success).length

/-- A `Response` as constructed by the handler: status, status text,
content type header, and body. -/
structure Resp where
  status : Nat
  statusText : String
  contentType : String
  body : String

/-- The 502 response `handle` returns when the failover fails. -/
def resp502 : Resp :=
  { status := 502, statusText := "Bad Gateway", contentType := "text/plain",
    body := "Walrus fetch failed" }

/-- The closure-scoped instance state of `create_versui_handler`. -/
structure HandlerState where
  resources : List (String × String)
  aggregators : List String
  success_notified : Bool

/-- The state right after `create_versui_handler()`: empty registry, no
aggregators, success not yet notified. -/
def init_state : HandlerState :=
  { resources := [], aggregators := [], success_notified := false }

/-- The `resources` argument of `load` as a JS value: `null`, a non-object
(including `undefined`), an array, or a plain object given by its
`Object.entries` list. -/
inductive JsResources
  | null
  | nonObject
  | array
  | obj (entries : List (String × String))

/-- The `aggregators` argument of `load` as a JS value: either not an
array, or an array of strings. -/
inductive JsAggregators
  | notArray
  | array (urls : List String)

/-- The resource-storing loop of `load`: fold the entries into a fresh map
keyed by normalized paths.  `Except.error` carries the partially built map
at the point where `normalize_path` threw. -/
def build_registry (acc : List (String × String)) :
    List (String × String) → Except (List (String × String)) (List (String × String))
  | [] => .ok acc
  | (p, id) :: rest =>
    match normalize_path p with
    | some k => build_registry (map_set acc k id) rest
    | none => .error acc

/-- The entries with their keys normalized, `none` when some key fails to
normalize.  (Statement-side companion of `build_registry`.) -/
def norm_entries : List (String × String) → Option (List (String × String))
  | [] => some []
  | (p, id) :: rest =>
    match normalize_path p, norm_entries rest with
    | some k, some l => some ((k, id) :: l)
    | _, _ => none

/-- Function `load` from `src/index.js`: validate the aggregators array, the
resources object, and each aggregator URL, then rebuild the registry from
scratch, replace the aggregator list (trailing slashes trimmed), and reset
the one-shot success flag.  Returns the state after the call together with
the result; on a thrown error the first component is the state the throw
leaves behind. -/
def load (st : HandlerState) (res : JsResources) (agg : JsAggregators) :
    HandlerState × Except String Unit :=
  match agg with
  | .notArray => (st, .error "load() requires non-empty aggregators array")
  | .array urls =>
    if urls.isEmpty then (st, .error "load() requires non-empty aggregators array")
    else
      match res with
      | .obj entries =>
        match urls.find? (fun u => !url_ok u) with
        | some u => (st, .error ("Invalid aggregator URL: " ++ u))
        | none =>
          match build_registry [] entries with
          | .ok m =>
            ({ resources := m, aggregators := urls.map trim_trailing_slash,
               success_notified := false }, .ok ())
          | .error partial_map =>
            ({ st with resources := partial_map }, .error "Invalid URL")
      | _ => (st, .error "load() requires resources object")

/-- Function `handles` from `src/index.js`: normalize the request URL and test
registry membership.  `none` models `normalize_path` throwing. -/
def handles (st : HandlerState) (url : String) : Option Bool :=
  (normalize_path url).map (fun p => map_has st.resources p)

/-- Everything one `handle` call produces: the result (the returned state
and response, or a thrown/rejected error message), the notifications
posted, and the aggregators contacted. -/
structure HandleResult where
  result : Except String (HandlerState × Resp)
  events : List Event
  calls : List String

/-- Function `handle` from `src/index.js`: throw synchronously when uninitialized;
otherwise normalize the URL, look up the quilt patch id, post
`VERSUI_LOADING`, run the failover, and either post `VERSUI_SUCCESS` (only
when the one-shot flag is still unset) and return a 200 response with the
inferred MIME type, or post `VERSUI_ERROR` with the last failure's message
and return the 502 response.  The state in the result carries the
`success_notified` update. -/
def handle (st : HandlerState) (f : String → Outcome) (url : String) : HandleResult :=
  if st.aggregators.isEmpty then
    { result := .error "Handler not initialized - call load() first", events := [], calls := [] }
  else
    match normalize_path url with
    | none => { result := .error "Invalid URL", events := [], calls := [] }
    | some path =>
      match try_aggregators f (map_get st.resources path) st.aggregators none with
      | (.ok body, calls) =>
        { result := .ok ({ st with success_notified := true },
            { status := 200, statusText := "", contentType := get_mime_type path,
              body := body }),
          events :=
            if st.success_notified then [Event.loading path]
            else [Event.loading path, Event.success],
          calls := calls }
      | (.error (some m), calls) =>
        { result := .ok (st, resp502),
          events := [Event.loading path, Event.error m], calls := calls }
      | (.error none, calls) =>
        { result := .error "Cannot read properties of undefined",
          events := [Event.loading path], calls := calls }

/-- The service-worker wiring documented in the repository README: the
fetch listener lets the handler process a request only when `handles` says
so, and otherwise leaves the request alone (`none`), so `handle` is never
invoked for it.  (When `handles` throws, the listener throws and no
handling occurs either.) -/
def on_fetch (st : HandlerState) (f : String → Outcome) (url : String) :
    Option HandleResult :=
  match handles st url with
  | some true => some (handle st f url)
  | _ => none

/-- Function `fetch_from_walrus` from `src/index.js`: reject when uninitialized,
when the normalized path has no registry entry, or when the stored id is
falsy (the empty string); otherwise return the failover result.  It posts
no notifications (the source contains no `notify_clients` call); the
second component is the list of aggregators contacted. -/
def fetch_from_walrus (st : HandlerState) (f : String → Outcome) (path : String) :
    Except String String × List String :=
  if st.aggregators.isEmpty then
    (.error "Handler not initialized - call load() first", [])
  else
    match normalize_path path with
    | none => (.error "Invalid URL", [])
    | some normalized =>
      match map_get st.resources normalized with
      | none => (.error ("Resource not found: " ++ normalized), [])
      | some quilt_patch_id =>
        if quilt_patch_id = "" then (.error ("Resource not found: " ++ normalized), [])
        else
          match try_aggregators f (some quilt_patch_id) st.aggregators none with
          | (.ok body, calls) => (.ok body, calls)
          | (.error le, calls) => (.error (js_str le), calls)

/-- A sequence of `handle` calls, threading the state and concatenating
the posted notifications.  A call whose result is a thrown error changes
no state and posts nothing, so the fold just moves on. -/
def run_seq (f : String → Outcome) : HandlerState → List String → HandlerState × List Event
  | st, [] => (st, [])
  | st, u :: rest =>
    match handle st f u with
    | { result := .ok (st', _), events := evs, calls := _ } =>
      let r := run_seq f st' rest
      (r.1, evs ++ r.2)
    | { result := .error _, events := _, calls := _ } => run_seq f st rest

theorem map_get_set_self (m : List (String × String)) (k v : String) :
    map_get (map_set m k v) k = some v := by
  induction m with
  | nil => simp [map_set, map_get]
  | cons p rest ih =>
    by_cases h : p.1 = k
    · simp [map_set, map_get, h]
    · simp only [map_set, beq_iff_eq, if_neg h]
      simpa [map_get, List.find?_cons, h] using ih

theorem map_get_set_other (m : List (String × String)) (k v k' : String) (h : k' ≠ k) :
    map_get (map_set m k v) k' = map_get m k' := by
  have hne : k ≠ k' := Ne.symm h
  induction m with
  | nil => simp [map_set, map_get, hne]
  | cons p rest ih =>
    by_cases hp : p.1 = k
    · simp [map_set, map_get, hp, hne]
    · simp only [map_set, beq_iff_eq, if_neg hp]
      by_cases hp' : p.1 = k'
      · simp [map_get, hp']
      · simpa [map_get, hp'] using ih

theorem map_has_set (m : List (String × String)) (k v k' : String) :
    map_has (map_set m k v) k' = true ↔ (map_has m k' = true ∨ k' = k) := by
  by_cases h : k' = k
  · subst h
    simp [map_has, map_get_set_self]
  · simp [map_has, map_get_set_other m k v k' h, h]

/-- One step of the registry-building fold. -/
def set_step (m : List (String × String)) (p : String × String) : List (String × String) :=
  map_set m p.1 p.2

theorem fold_get_not_mem (l : List (String × String)) (acc : List (String × String))
    (k : String) (h : k ∉ l.map Prod.fst) :
    map_get (l.foldl set_step acc) k = map_get acc k := by
  induction l generalizing acc with
  | nil => rfl
  | cons p rest ih =>
    simp only [List.map_cons, List.mem_cons] at h
    push_neg at h
    simp only [List.foldl_cons]
    rw [ih _ h.2, set_step, map_get_set_other _ _ _ _ h.1]

theorem fold_get_unique (l : List (String × String)) (k id : String)
    (hmem : (k, id) ∈ l) (hnd : (l.map Prod.fst).Nodup) :
    map_get (l.foldl set_step []) k = some id := by
  obtain ⟨s, t, rfl⟩ := List.append_of_mem hmem
  have hk : k ∉ t.map Prod.fst := by
    simp only [List.map_append, List.map_cons] at hnd
    exact (List.nodup_cons.mp hnd.of_append_right).1
  rw [List.foldl_append]
  simp only [List.foldl_cons]
  rw [fold_get_not_mem _ _ _ hk, set_step, map_get_set_self]

theorem fold_has_iff (l : List (String × String)) (acc : List (String × String)) (k : String) :
    map_has (l.foldl set_step acc) k = true ↔
      (map_has acc k = true ∨ k ∈ l.map Prod.fst) := by
  induction l generalizing acc with
  | nil => simp
  | cons p rest ih =>
    simp only [List.foldl_cons, List.map_cons, List.mem_cons]
    rw [ih]
    rw [set_step, map_has_set]
    tauto

theorem try_aggregators_all_fail (f : String → Outcome) (qid : Option String)
    (xs : List String) (a : String)
    (hfail : ∀ b ∈ xs ++ [a], (f (fetch_url b qid)).is_ok = false) :
    ∀ le, try_aggregators f qid (xs ++ [a]) le =
      (.error (failure_msg a (f (fetch_url a qid))), xs ++ [a]) := by
  induction xs with
  | nil =>
    intro le
    have ha := hfail a (by simp)
    rcases hfa : f (fetch_url a qid) with ⟨s, b⟩ | m
    · rw [hfa] at ha
      simp only [Outcome.is_ok] at ha
      simp [try_aggregators, hfa, ha, failure_msg]
    · simp [try_aggregators, hfa, failure_msg]
  | cons x xs ih =>
    intro le
    have hx := hfail x (by simp)
    have hrest : ∀ b ∈ xs ++ [a], (f (fetch_url b qid)).is_ok = false := by
      intro b hb
      exact hfail b (by simp at hb ⊢; tauto)
    rcases hfx : f (fetch_url x qid) with ⟨s, b⟩ | m
    · rw [hfx] at hx
      simp only [Outcome.is_ok] at hx
      simp [try_aggregators, hfx, hx, ih hrest]
    · simp [try_aggregators, hfx, ih hrest]

/-- C2: the failover tries the endpoints strictly in list order, one
attempt each; the first endpoint whose fetch succeeds has its response
returned immediately, and no endpoint listed after it is contacted. -/
theorem failover_tries_in_order (f : String → Outcome) (qid : Option String)
    (xs ys : List String) (b : String) (le : Option String) (s : Nat) (body : String)
    (hxs : ∀ x ∈ xs, (f (fetch_url x qid)).is_ok = false)
    (hb : f (fetch_url b qid) = .resp s body) (h200 : 200 ≤ s) (h299 : s ≤ 299) :
    try_aggregators f qid (xs ++ b :: ys) le = (.ok body, xs ++ [b]) := by
  induction xs generalizing le with
  | nil => simp [try_aggregators, hb, h200, h299]
  | cons x xs ih =>
    have hx := hxs x (by simp)
    have hrest : ∀ x ∈ xs, (f (fetch_url x qid)).is_ok = false := by
      intro x' hx'
      exact hxs x' (by simp [hx'])
    rcases hfx : f (fetch_url x qid) with ⟨s', b'⟩ | m
    · rw [hfx] at hx
      simp only [Outcome.is_ok] at hx
      have hr := ih (some (x ++ ": " ++ toString s')) hrest
      simp [try_aggregators, hfx, hx, hr]
    · have hr := ih (some m) hrest
      simp [try_aggregators, hfx, hr]

/-- Witness for C2 at the spec's example: endpoints A then B, A settles
with status 500, B succeeds; exactly one call to A then one to B occur
and B's response is returned. -/
theorem failover_tries_in_order_witness :
    try_aggregators
      (fun u => if u = "https://b.test/v1/blobs/id1" then .resp 200 "payload" else .resp 500 "")
      (some "id1") ["https://a.test", "https://b.test"] none =
      (.ok "payload", ["https://a.test", "https://b.test"]) := by
  exact failover_tries_in_order
    (fun u => if u = "https://b.test/v1/blobs/id1" then .resp 200 "payload" else .resp 500 "")
    (some "id1") ["https://a.test"] [] "https://b.test" none 200 "payload"
    (by decide) rfl (by decide) (by decide)

/-- C3: when every endpoint fails (non-success status or thrown
transport/timeout error), `handle` posts exactly one VERSUI_ERROR whose
message is the last endpoint's recorded failure, and returns the 502
gateway-failure response; the one-shot flag and the rest of the state are
untouched. -/
theorem handle_all_endpoints_fail (st : HandlerState) (f : String → Outcome)
    (url p : String) (xs : List String) (a m : String)
    (hagg : st.aggregators = xs ++ [a])
    (hp : normalize_path url = some p)
    (hfail : ∀ b ∈ xs ++ [a], (f (fetch_url b (map_get st.resources p))).is_ok = false)
    (hm : failure_msg a (f (fetch_url a (map_get st.resources p))) = some m) :
    handle st f url =
      { result := .ok (st, resp502),
        events := [Event.loading p, Event.error m],
        calls := xs ++ [a] } := by
  have htry := try_aggregators_all_fail f (map_get st.resources p) xs a hfail none
  simp [handle, hagg, hp, htry, hm]

/-- Witness for C3: one endpoint settling with status 500; the ERROR
message names the endpoint and the status, and the response is the 502. -/
theorem handle_all_endpoints_fail_witness :
    handle { resources := [("/index.html", "id1")], aggregators := ["https://a.test"],
             success_notified := false }
      (fun _ => .resp 500 "oops") "https://site.test/index.html" =
      { result := .ok ({ resources := [("/index.html", "id1")],
                         aggregators := ["https://a.test"], success_notified := false },
                       resp502),
        events := [Event.loading "/index.html", Event.error "https://a.test: 500"],
        calls := ["https://a.test"] } := by
  exact handle_all_endpoints_fail _ (fun _ => .resp 500 "oops") _ "/index.html" []
    "https://a.test" "https://a.test: 500" rfl (by decide) (by decide) (by decide)

/-- C4: with no aggregators loaded (the uninitialized state), `handle`
fails at once with the distinct not-initialized error, posting no
notification and contacting no endpoint, and `fetch_from_walrus` fails the
same way. -/
theorem uninitialized_fails (st : HandlerState) (f : String → Outcome) (url path : String)
    (h : st.aggregators = []) :
    handle st f url =
      { result := .error "Handler not initialized - call load() first",
        events := [], calls := [] } ∧
    fetch_from_walrus st f path =
      (.error "Handler not initialized - call load() first", []) := by
  constructor
  · simp [handle, h]
  · simp [fetch_from_walrus, h]

/-- Witness for C4 at the freshly created handler state. -/
theorem uninitialized_fails_witness :
    handle init_state (fun _ => .resp 200 "x") "https://site.test/index.html" =
      { result := .error "Handler not initialized - call load() first",
        events := [], calls := [] } ∧
    fetch_from_walrus init_state (fun _ => .resp 200 "x") "/index.html" =
      (.error "Handler not initialized - call load() first", []) :=
  uninitialized_fails init_state (fun _ => .resp 200 "x")
    "https://site.test/index.html" "/index.html" rfl

/-- C5: a request whose normalized path is not in the registry is not
handled: `handles` answers false, so the documented wiring never invokes
`handle`, and no notification is posted and no endpoint is contacted. -/
theorem absent_path_declined (st : HandlerState) (f : String → Outcome) (url p : String)
    (hp : normalize_path url = some p)
    (habs : map_has st.resources p = false) :
    handles st url = some false ∧ on_fetch st f url = none ∧
    (on_fetch st f url).elim [] HandleResult.events = [] ∧
    (on_fetch st f url).elim [] HandleResult.calls = [] := by
  have h1 : handles st url = some false := by simp [handles, hp, habs]
  refine ⟨h1, ?_, ?_, ?_⟩ <;> simp [on_fetch, h1]

/-- Witness for C5: a loaded handler declines a URL outside its registry. -/
theorem absent_path_declined_witness :
    handles { resources := [("/index.html", "id1")], aggregators := ["https://a.test"],
              success_notified := false } "https://site.test/other.html" = some false ∧
    on_fetch { resources := [("/index.html", "id1")], aggregators := ["https://a.test"],
               success_notified := false }
      (fun _ => .resp 200 "x") "https://site.test/other.html" = none ∧
    (on_fetch { resources := [("/index.html", "id1")], aggregators := ["https://a.test"],
                success_notified := false }
      (fun _ => .resp 200 "x") "https://site.test/other.html").elim []
      HandleResult.events = [] ∧
    (on_fetch { resources := [("/index.html", "id1")], aggregators := ["https://a.test"],
                success_notified := false }
      (fun _ => .resp 200 "x") "https://site.test/other.html").elim []
      HandleResult.calls = [] :=
  absent_path_declined _ (fun _ => .resp 200 "x") "https://site.test/other.html"
    "/other.html" (by decide) (by decide)

theorem build_ok_norm (entries : List (String × String)) :
    ∀ acc m, build_registry acc entries = .ok m →
      ∃ nl, norm_entries entries = some nl ∧ m = nl.foldl set_step acc := by
  induction entries with
  | nil =>
    intro acc m h
    simp only [build_registry, Except.ok.injEq] at h
    exact ⟨[], rfl, h.symm⟩
  | cons pr rest ih =>
    intro acc m h
    obtain ⟨p, id⟩ := pr
    simp only [build_registry] at h
    cases hn : normalize_path p with
    | none => rw [hn] at h; simp at h
    | some k =>
      rw [hn] at h
      obtain ⟨nl, h1, h2⟩ := ih (map_set acc k id) m h
      refine ⟨(k, id) :: nl, ?_, ?_⟩
      · simp [norm_entries, hn, h1]
      · simp [h2, set_step]

theorem load_ok_inv (st st' : HandlerState) (res : JsResources) (agg : JsAggregators)
    (h : load st res agg = (st', .ok ())) :
    ∃ entries urls nl, res = .obj entries ∧ agg = .array urls ∧ urls ≠ [] ∧
      norm_entries entries = some nl ∧
      st' = { resources := nl.foldl set_step [],
              aggregators := urls.map trim_trailing_slash,
              success_notified := false } := by
  cases agg with
  | notArray => simp [load] at h
  | array urls =>
    cases he : urls.isEmpty with
    | true => simp [load, he] at h
    | false =>
      cases res with
      | null => simp [load, he] at h
      | nonObject => simp [load, he] at h
      | array => simp [load, he] at h
      | obj entries =>
        simp only [load, he, Bool.false_eq_true, if_false] at h
        cases hf : urls.find? (fun u => !url_ok u) with
        | some u => rw [hf] at h; simp at h
        | none =>
          rw [hf] at h
          cases hb : build_registry [] entries with
          | error pm => rw [hb] at h; simp at h
          | ok m =>
            rw [hb] at h
            obtain ⟨nl, h1, h2⟩ := build_ok_norm entries [] m hb
            simp only [Prod.mk.injEq] at h
            refine ⟨entries, urls, nl, rfl, rfl, ?_, h1, ?_⟩
            · intro hnil
              rw [hnil] at he
              simp at he
            · rw [← h.1, h2]

/-- C10: a successful `load` rebuilds the registry from scratch (its keys
are exactly the normalized keys of the new mapping, independent of the
previous registry) and replaces the aggregator list with the given one in
order, each URL with one trailing slash trimmed. -/
theorem load_replaces_state (st st' : HandlerState) (entries : List (String × String))
    (urls : List String) (nl : List (String × String))
    (h : load st (.obj entries) (.array urls) = (st', .ok ()))
    (hn : norm_entries entries = some nl) :
    (∀ k, map_has st'.resources k = true ↔ k ∈ nl.map Prod.fst) ∧
    st'.aggregators = urls.map trim_trailing_slash := by
  obtain ⟨e', u', nl', he, hu, _, hn', hst⟩ := load_ok_inv st st' _ _ h
  obtain rfl : entries = e' := by injection he
  obtain rfl : urls = u' := by injection hu
  obtain rfl : nl = nl' := by rw [hn] at hn'; injection hn'
  subst hst
  refine ⟨fun k => ?_, rfl⟩
  rw [fold_has_iff]
  simp [map_has, map_get]

/-- Witness for C10: a prior registry entry does not survive a reload, and
aggregator URLs keep their order with one trailing slash trimmed. -/
theorem load_replaces_state_witness :
    (∀ k, map_has (load { resources := [("/old.html", "idold")],
                          aggregators := ["https://old.test"], success_notified := true }
        (.obj [("/index.html", "id1"), ("/app.js", "id2")])
        (.array ["https://a.test/", "https://b.test"])).1.resources k = true ↔
      k ∈ ["/index.html", "/app.js"]) ∧
    (load { resources := [("/old.html", "idold")],
            aggregators := ["https://old.test"], success_notified := true }
        (.obj [("/index.html", "id1"), ("/app.js", "id2")])
        (.array ["https://a.test/", "https://b.test"])).1.aggregators =
      ["https://a.test", "https://b.test"] := by
  have := load_replaces_state
    { resources := [("/old.html", "idold")], aggregators := ["https://old.test"],
      success_notified := true }
    ({ resources := [("/index.html", "id1"), ("/app.js", "id2")],
       aggregators := ["https://a.test", "https://b.test"], success_notified := false })
    [("/index.html", "id1"), ("/app.js", "id2")]
    ["https://a.test/", "https://b.test"]
    [("/index.html", "id1"), ("/app.js", "id2")] rfl (by decide)
  exact ⟨fun k => by simpa using this.1 k, by rfl⟩

theorem norm_entries_mem (entries : List (String × String)) :
    ∀ nl, norm_entries entries = some nl →
      ∀ p id k, (p, id) ∈ entries → normalize_path p = some k → (k, id) ∈ nl := by
  induction entries with
  | nil => intro nl _ p id k hmem; simp at hmem
  | cons pr rest ih =>
    intro nl h p id k hmem hk
    obtain ⟨p', id'⟩ := pr
    simp only [norm_entries] at h
    cases hn' : normalize_path p' with
    | none => rw [hn'] at h; simp at h
    | some k' =>
      rw [hn'] at h
      cases hr : norm_entries rest with
      | none => rw [hr] at h; simp at h
      | some nl' =>
        rw [hr] at h
        simp only [Option.some.injEq] at h
        subst h
        rcases List.mem_cons.mp hmem with heq | hmem'
        · obtain ⟨rfl, rfl⟩ := Prod.mk.injEq .. ▸ heq
          rw [hn'] at hk
          injection hk with hk
          subst hk
          exact List.mem_cons_self _ _
        · exact List.mem_cons_of_mem _ (ih nl' hr p id k hmem' hk)

/-- C8 (amended): after a successful `load` of a mapping in which no two
entries share a normalized path, every `(path, id)` pair of the mapping is
registered: the registry has the key `normalize(path)` and lookup of that
key returns `id`. -/
theorem load_registers_pairs (st st' : HandlerState) (entries : List (String × String))
    (urls : List String) (nl : List (String × String)) (p id k : String)
    (h : load st (.obj entries) (.array urls) = (st', .ok ()))
    (hn : norm_entries entries = some nl)
    (hnd : (nl.map Prod.fst).Nodup)
    (hmem : (p, id) ∈ entries) (hk : normalize_path p = some k) :
    map_has st'.resources k = true ∧ map_get st'.resources k = some id := by
  obtain ⟨e', u', nl', he, _, _, hn', hst⟩ := load_ok_inv st st' _ _ h
  obtain rfl : entries = e' := by injection he
  obtain rfl : nl = nl' := by rw [hn] at hn'; injection hn'
  subst hst
  have hkm : (k, id) ∈ nl := norm_entries_mem entries nl hn p id k hmem hk
  have hget : map_get (nl.foldl set_step []) k = some id := fold_get_unique nl k id hkm hnd
  exact ⟨by simp [map_has, hget], hget⟩

/-- Witness for C8 (amended) on a two-entry mapping with distinct
normalized keys. -/
theorem load_registers_pairs_witness :
    map_has (load init_state (.obj [("/index.html", "id1"), ("/app.js", "id2")])
      (.array ["https://a.test"])).1.resources "/app.js" = true ∧
    map_get (load init_state (.obj [("/index.html", "id1"), ("/app.js", "id2")])
      (.array ["https://a.test"])).1.resources "/app.js" = some "id2" := by
  have := load_registers_pairs init_state
    ({ resources := [("/index.html", "id1"), ("/app.js", "id2")],
       aggregators := ["https://a.test"], success_notified := false })
    [("/index.html", "id1"), ("/app.js", "id2")] ["https://a.test"]
    [("/index.html", "id1"), ("/app.js", "id2")] "/app.js" "id2" "/app.js"
    rfl (by decide) (by decide) (by decide) (by decide)
  exact ⟨by simpa using this.1, by simpa using this.2⟩

/-- Counterexample to C8 as stated: the mapping registers both the path
with and without a trailing slash; they normalize to the same key, the
later entry overwrites the earlier one, and lookup of the earlier pair's
normalized path does not return its id. -/
theorem load_registers_pairs_cex :
    load init_state (.obj [("/a", "1"), ("/a/", "2")]) (.array ["https://a.test"]) =
      ({ resources := [("/a", "2")], aggregators := ["https://a.test"],
         success_notified := false }, .ok ()) ∧
    ("/a", "1") ∈ [("/a", "1"), ("/a/", "2")] ∧
    normalize_path "/a" = some "/a" ∧
    map_get [("/a", "2")] "/a" ≠ some "1" :=
  ⟨rfl, by decide, by decide, by decide⟩

/-- The inputs `load` rejects according to C9: aggregators not a
non-empty array; resources null, non-object or array-shaped; or some
aggregator entry not a parseable URL. -/
def load_rejects (res : JsResources) (agg : JsAggregators) : Bool :=
  match agg with
  | .notArray => true
  | .array urls =>
    urls.isEmpty ||
      (match res with
       | .obj _ => urls.any (fun u => !url_ok u)
       | _ => true)

/-- C9: whenever `load` rejects its input (aggregators not a non-empty
array, resources null/non-object/array-shaped, or an aggregator entry that
is not a parseable URL), it throws before any mutation: the state after
the call is exactly the state before it. -/
theorem load_atomic_on_rejection (st : HandlerState) (res : JsResources)
    (agg : JsAggregators) (h : load_rejects res agg = true) :
    (load st res agg).1 = st ∧ ∃ m, (load st res agg).2 = Except.error m := by
  cases agg with
  | notArray => exact ⟨rfl, _, rfl⟩
  | array urls =>
    cases he : urls.isEmpty with
    | true => simp [load, he]
    | false =>
      simp only [load_rejects, he, Bool.false_or] at h
      cases res with
      | null => simp [load, he]
      | nonObject => simp [load, he]
      | array => simp [load, he]
      | obj entries =>
        have : (urls.find? (fun u => !url_ok u)).isSome := by
          rw [List.find?_isSome]
          simpa using List.any_eq_true.mp h
        obtain ⟨u, hu⟩ := Option.isSome_iff_exists.mp this
        simp [load, he, hu]

/-- Witness for C9: a rejected `load` (null resources) on a handler that
already holds state leaves registry, endpoint list and one-shot flag
exactly as they were. -/
theorem load_atomic_on_rejection_witness :
    (load { resources := [("/x.html", "idx")], aggregators := ["https://a.test"],
            success_notified := true } JsResources.null
        (.array ["https://b.test"])).1 =
      { resources := [("/x.html", "idx")], aggregators := ["https://a.test"],
        success_notified := true } ∧
    ∃ m, (load { resources := [("/x.html", "idx")], aggregators := ["https://a.test"],
                 success_notified := true } JsResources.null
        (.array ["https://b.test"])).2 = Except.error m :=
  load_atomic_on_rejection _ JsResources.null (.array ["https://b.test"]) (by decide)

theorem is_ok_inv (o : Outcome) (h : o.is_ok = true) :
    ∃ s b, o = .resp s b ∧ 200 ≤ s ∧ s ≤ 299 := by
  cases o with
  | resp s b =>
    simp only [Outcome.is_ok, Bool.and_eq_true, decide_eq_true_eq] at h
    exact ⟨s, b, rfl, h.1, h.2⟩
  | exn m => simp [Outcome.is_ok] at h

theorem handle_ok_eval (st : HandlerState) (f : String → Outcome) (url p : String)
    (a : String) (rest : List String) (s : Nat) (body : String)
    (hagg : st.aggregators = a :: rest)
    (hp : normalize_path url = some p)
    (hf : f (fetch_url a (map_get st.resources p)) = .resp s body)
    (h200 : 200 ≤ s) (h299 : s ≤ 299) :
    handle st f url =
      { result := .ok ({ st with success_notified := true },
          { status := 200, statusText := "", contentType := get_mime_type p,
            body := body }),
        events := if st.success_notified then [Event.loading p]
                  else [Event.loading p, Event.success],
        calls := [a] } := by
  simp [handle, hagg, hp, try_aggregators, hf, h200, h299]

theorem state_set_flag_id (st : HandlerState) (h : st.success_notified = true) :
    ({ st with success_notified := true } : HandlerState) = st := by
  cases st
  simp_all

theorem run_seq_flag_true (f : String → Outcome) (hfok : ∀ x, (f x).is_ok = true) :
    ∀ (urls : List String) (st : HandlerState),
      st.success_notified = true → st.aggregators ≠ [] →
      (∀ u ∈ urls, (normalize_path u).isSome) →
      (run_seq f st urls).1 = st ∧ count_success (run_seq f st urls).2 = 0 := by
  intro urls
  induction urls with
  | nil => intro st _ _ _; exact ⟨rfl, rfl⟩
  | cons u rest ih =>
    intro st hflag hagg hnorm
    obtain ⟨p, hp⟩ := Option.isSome_iff_exists.mp (hnorm u (by simp))
    obtain ⟨a, as, hagg'⟩ := List.exists_cons_of_ne_nil hagg
    obtain ⟨s, b, hf, h200, h299⟩ := is_ok_inv _ (hfok (fetch_url a (map_get st.resources p)))
    have hh := handle_ok_eval st f u p a as s b hagg' hp hf h200 h299
    have hid : ({ st with success_notified := true } : HandlerState) = st :=
      state_set_flag_id st hflag
    have hrest : ∀ v ∈ rest, (normalize_path v).isSome := fun v hv => hnorm v (by simp [hv])
    have ihr := ih st hflag hagg hrest
    constructor
    · simp [run_seq, hh, hflag, hid, ihr.1]
    · simp [run_seq, hh, hflag, hid, count_success, List.filter_append,
        Event.is_success] at ihr ⊢
      exact ihr.2

theorem run_seq_first_success (f : String → Outcome) (hfok : ∀ x, (f x).is_ok = true)
    (u : String) (rest : List String) (st : HandlerState)
    (hflag : st.success_notified = false) (hagg : st.aggregators ≠ [])
    (hnorm : ∀ v ∈ u :: rest, (normalize_path v).isSome) :
    ∃ p evs, normalize_path u = some p ∧
      (run_seq f st (u :: rest)).2 = Event.loading p :: Event.success :: evs ∧
      count_success evs = 0 ∧
      (run_seq f st (u :: rest)).1 = { st with success_notified := true } := by
  obtain ⟨p, hp⟩ := Option.isSome_iff_exists.mp (hnorm u (by simp))
  obtain ⟨a, as, hagg'⟩ := List.exists_cons_of_ne_nil hagg
  obtain ⟨s, b, hf, h200, h299⟩ := is_ok_inv _ (hfok (fetch_url a (map_get st.resources p)))
  have hh := handle_ok_eval st f u p a as s b hagg' hp hf h200 h299
  have hagg2 : ({ st with success_notified := true } : HandlerState).aggregators ≠ [] := hagg
  have hrest : ∀ v ∈ rest, (normalize_path v).isSome := fun v hv => hnorm v (by simp [hv])
  have htail := run_seq_flag_true f hfok rest { st with success_notified := true }
    rfl hagg2 hrest
  refine ⟨p, (run_seq f { st with success_notified := true } rest).2, hp, ?_, htail.2, ?_⟩
  · simp [run_seq, hh, hflag]
  · simp [run_seq, hh, hflag, htail.1]

/-- C1: after a successful `load`, a nonempty sequence of successfully
fetched requests posts VERSUI_SUCCESS exactly once, on the first request
(right after its VERSUI_LOADING), and on no later request; after a
subsequent successful `load` resets the one-shot flag, a further nonempty
successful sequence posts it exactly once again. -/
theorem success_notified_once_per_load
    (st st1 st2 : HandlerState) (res res2 : JsResources) (agg agg2 : JsAggregators)
    (f f2 : String → Outcome) (u : String) (rest : List String)
    (u2 : String) (rest2 : List String)
    (h1 : load st res agg = (st1, .ok ()))
    (hn1 : ∀ v ∈ u :: rest, (normalize_path v).isSome)
    (hf1 : ∀ x, (f x).is_ok = true)
    (h2 : load (run_seq f st1 (u :: rest)).1 res2 agg2 = (st2, .ok ()))
    (hn2 : ∀ v ∈ u2 :: rest2, (normalize_path v).isSome)
    (hf2 : ∀ x, (f2 x).is_ok = true) :
    (∃ p1 evs1, normalize_path u = some p1 ∧
      (run_seq f st1 (u :: rest)).2 = Event.loading p1 :: Event.success :: evs1 ∧
      count_success evs1 = 0) ∧
    count_success (run_seq f st1 (u :: rest)).2 = 1 ∧
    (∃ p2 evs2, normalize_path u2 = some p2 ∧
      (run_seq f2 st2 (u2 :: rest2)).2 = Event.loading p2 :: Event.success :: evs2 ∧
      count_success evs2 = 0) ∧
    count_success (run_seq f2 st2 (u2 :: rest2)).2 = 1 := by
  obtain ⟨e1, urls1, nl1, _, _, hne1, _, hst1⟩ := load_ok_inv st st1 res agg h1
  have hflag1 : st1.success_notified = false := by rw [hst1]
  have hagg1 : st1.aggregators ≠ [] := by
    rw [hst1]
    simpa [List.map_eq_nil_iff] using hne1
  obtain ⟨p1, evs1, hp1, hev1, hc1, _⟩ :=
    run_seq_first_success f hf1 u rest st1 hflag1 hagg1 hn1
  obtain ⟨e2, urls2, nl2, _, _, hne2, _, hst2⟩ :=
    load_ok_inv (run_seq f st1 (u :: rest)).1 st2 res2 agg2 h2
  have hflag2 : st2.success_notified = false := by rw [hst2]
  have hagg2 : st2.aggregators ≠ [] := by
    rw [hst2]
    simpa [List.map_eq_nil_iff] using hne2
  obtain ⟨p2, evs2, hp2, hev2, hc2, _⟩ :=
    run_seq_first_success f2 hf2 u2 rest2 st2 hflag2 hagg2 hn2
  refine ⟨⟨p1, evs1, hp1, hev1, hc1⟩, ?_, ⟨p2, evs2, hp2, hev2, hc2⟩, ?_⟩
  · rw [hev1]
    simpa [count_success, Event.is_success] using hc1
  · rw [hev2]
    simpa [count_success, Event.is_success] using hc2

/-- Witness for C1: one load, two successful fetches of the same resource,
a reload, one more successful fetch; each generation posts exactly one
VERSUI_SUCCESS. -/
theorem success_notified_once_per_load_witness :
    count_success (run_seq (fun _ => Outcome.resp 200 "<html></html>")
      { resources := [("/index.html", "id1")], aggregators := ["https://a.test"],
        success_notified := false }
      ["https://site.test/index.html", "https://site.test/index.html"]).2 = 1 ∧
    count_success (run_seq (fun _ => Outcome.resp 200 "<html></html>")
      { resources := [("/index.html", "id1")], aggregators := ["https://a.test"],
        success_notified := false }
      ["https://site.test/index.html"]).2 = 1 := by
  have := success_notified_once_per_load init_state
    ({ resources := [("/index.html", "id1")], aggregators := ["https://a.test"],
       success_notified := false })
    ({ resources := [("/index.html", "id1")], aggregators := ["https://a.test"],
       success_notified := false })
    (.obj [("/index.html", "id1")]) (.obj [("/index.html", "id1")])
    (.array ["https://a.test"]) (.array ["https://a.test"])
    (fun _ => Outcome.resp 200 "<html></html>") (fun _ => Outcome.resp 200 "<html></html>")
    "https://site.test/index.html" ["https://site.test/index.html"]
    "https://site.test/index.html" []
    rfl (by decide) (fun _ => rfl) rfl (by decide) (fun _ => rfl)
  exact ⟨this.2.1, this.2.2.2⟩

theorem mem_of_strip_one_trailing (s : String) (c : Char)
    (h : c ∈ (strip_one_trailing s).data) : c ∈ s.data := by
  unfold strip_one_trailing at h
  split at h
  · exact (List.dropLast_sublist s.data).mem (by simpa [js_dropLast] using h)
  · exact h

theorem strip_query_no_query (s : String) : '?' ∉ (strip_query s).data := by
  unfold strip_query
  split
  case isTrue h =>
    intro hm
    have := List.mem_takeWhile_imp (by simpa using hm)
    simp at this
  case isFalse h =>
    intro hm
    exact h (List.elem_iff.mpr hm)

theorem special_pathname_no_query (rest1 : List Char) (p : String)
    (h : special_pathname rest1 = some p) : '?' ∉ p.data := by
  unfold special_pathname at h
  split at h
  · simp at h
  · injection h with h
    subst h
    split
    · intro hm
      exact absurd hm (by decide)
    · intro hm
      have := List.mem_takeWhile_imp (by simpa [path_after_host] using hm)
      simp at this

theorem url_after_scheme_no_query (scheme rest : List Char) (p : String)
    (h : url_after_scheme scheme rest = some p) : '?' ∉ p.data := by
  unfold url_after_scheme at h
  split at h
  case isFalse => simp at h
  case isTrue =>
    split at h
    · exact special_pathname_no_query _ p h
    · injection h with h
      subst h
      intro hm
      have := List.mem_takeWhile_imp (by simpa using hm)
      simp at this

theorem url_pathname_no_query (s p : String) (h : url_pathname s = some p) :
    '?' ∉ p.data := by
  unfold url_pathname at h
  split at h
  · exact url_after_scheme_no_query _ _ p h
  · simp at h

theorem normalize_no_query (x r : String) (h : normalize_path x = some r) :
    '?' ∉ r.data := by
  unfold normalize_path at h
  split at h
  · cases hu : url_pathname x with
    | none => rw [hu] at h; simp at h
    | some p =>
      rw [hu] at h
      simp only [Option.map_some', Option.some.injEq] at h
      subst h
      intro hm
      exact url_pathname_no_query x p hu (mem_of_strip_one_trailing p '?' hm)
  · simp only [Option.some.injEq] at h
    subst h
    intro hm
    have hm2 := mem_of_strip_one_trailing _ _ hm
    by_cases hc : js_startsWith (strip_query x) "/" = true
    · rw [if_pos hc] at hm2
      exact strip_query_no_query x hm2
    · rw [if_neg hc] at hm2
      rw [String.data_append] at hm2
      rcases List.mem_append.mp hm2 with hL | hR
      · exact absurd hL (by decide)
      · exact strip_query_no_query x hR

theorem startsWith_slash_data (r : String) (h : js_startsWith r "/" = true) :
    ∃ t, r.data = '/' :: t := by
  unfold js_startsWith at h
  rw [List.isPrefixOf_iff_prefix] at h
  obtain ⟨t, ht⟩ := h
  exact ⟨t, by simpa using ht.symm⟩

theorem not_startsWith_http_of_slash (r : String) (h : js_startsWith r "/" = true) :
    js_startsWith r "http" = false := by
  obtain ⟨t, ht⟩ := startsWith_slash_data r h
  unfold js_startsWith
  rw [ht]
  rfl

/-- C6 (amended): normalization is idempotent on every value it actually
produces whose result keeps a leading slash and retains no extra trailing
slash: if `normalize(x)` returns `r`, `r` starts with a slash, and `r` is
the root or does not end with a slash, then `normalize(r) = r`.  (The
counterexample below shows the unrestricted claim fails: one application
strips only one of two trailing slashes, so a second application strips
another.) -/
theorem normalize_path_idem (x r : String) (h : normalize_path x = some r)
    (hs : js_startsWith r "/" = true)
    (hr : r = "/" ∨ js_endsWith r "/" = false) :
    normalize_path r = some r := by
  have hq := normalize_no_query x r h
  have hh := not_startsWith_http_of_slash r hs
  have hC : r.data.contains '?' = false := by
    cases hce : r.data.contains '?' with
    | false => rfl
    | true => exact absurd (List.elem_iff.mp hce) hq
  have hsq : strip_query r = r := by
    unfold strip_query
    rw [hC]
    simp
  unfold normalize_path
  rw [hh]
  simp only [Bool.false_eq_true, if_false, hsq, hs, if_true, Option.some.injEq]
  rcases hr with rfl | hr
  · rfl
  · unfold strip_one_trailing
    rw [hr]
    simp

/-- Witness for C6 (amended): a normalized path with no trailing slash is
a fixed point of normalization. -/
theorem normalize_path_idem_witness : normalize_path "/app.js" = some "/app.js" :=
  normalize_path_idem "/app.js" "/app.js" (by decide) (by decide) (Or.inr (by decide))

/-- Counterexample to C6 as stated: on the input with two trailing slashes
the first normalization strips only one slash, so applying normalization
to its own output strips another and yields a different string. -/
theorem normalize_path_idem_cex :
    (normalize_path "/a//").bind normalize_path ≠ normalize_path "/a//" := by decide

/-- C7 (amended): normalization is total and never throws on every input
that does not start with `http`; an input that starts with `http` but is
not a parseable URL makes the URL constructor (and hence normalize)
throw, as the counterexample shows. -/
theorem normalize_total_non_http (x : String)
    (h : js_startsWith x "http" = false) : ∃ r, normalize_path x = some r := by
  unfold normalize_path
  rw [h]
  simp

/-- Witness for C7 (amended) on a bare path with a query string. -/
theorem normalize_total_non_http_witness :
    ∃ r, normalize_path "app.js?v=2" = some r :=
  normalize_total_non_http "app.js?v=2" (by decide)

/-- Counterexample to C7 as stated: the string `http` is a bare path, yet
normalization passes it to the URL constructor, which throws. -/
theorem normalize_total_cex : normalize_path "http" = none := by decide
